import Mathlib

/-!
Verification of the quadratic-voting pallet
(`pallets/voting/src/lib.rs` of `nhussein11/quadratic-voting-thesis`).

The pallet's storage (RegisteredVoters, Proposals, AyeVotes), the host
ledger balances and the event queue are embedded as one explicit `State`
record; every dispatchable becomes a function `State → Except Err State`.
Balances are `u128` in the source; they are modelled as `Nat`, with an
explicit `% 2 ^ 128` wherever the source performs an unchecked `+`, and
with the checked helpers (`checked_add_between_balances`, ...) failing
exactly when the `u128` operation would.
-/

namespace QuadraticVoting

/- The source types AccountId, BalanceOf (u128), ProposalIndex (u32) and the
block number are all embedded as `Nat`; u128 overflow is made explicit with
`balanceMod` below wherever the source arithmetic is unchecked. -/

/-- Modulus of the `u128` balance type. -/
def balanceMod : Nat := 2 ^ 128

/-- Fuel-driven binary search on `[lo, hi]` for the floor square root of `n`.
The fuel only bounds the recursion; `integer_sqrt_eq_sqrt` below shows the
result is exactly `Nat.sqrt`. -/
def sqrtGo (n : Nat) : Nat → Nat → Nat → Nat
  | 0, lo, _ => lo
  | fuel + 1, lo, hi =>
    if hi ≤ lo then lo
    else
      let mid := (lo + hi + 1) / 2
      if mid * mid ≤ n then sqrtGo n fuel mid hi
      else sqrtGo n fuel lo (mid - 1)

/-- The floor square root, as computed by the `IntegerSquareRoot` trait the
pallet imports (`reserved_tokens.integer_sqrt()` and
`tokens_to_use.integer_sqrt()`). -/
def integer_sqrt (n : Nat) : Nat := sqrtGo n n 0 n

/- The `Proposals` storage map is declared with the `Blake2_128Concat` hasher,
so `Proposals::<T>::iter()` yields entries in the lexicographic order of
`blake2_128(SCALE(key)) ++ SCALE(key)`, not in numeric key order. The hasher
is embedded below: blake2b with a 16-byte digest (RFC 7693), specialised to
unkeyed messages of at most one block, which covers the 4-byte SCALE-encoded
`u32` proposal indices. -/

/-- Modulus of a 64-bit blake2b word. -/
def word64 : Nat := 2 ^ 64

def add64 (a b : Nat) : Nat := (a + b) % word64

/-- Rotate a 64-bit word right by `n` bits. -/
def ror64 (x n : Nat) : Nat := x / 2 ^ n + x % 2 ^ n * 2 ^ (64 - n)

def getN (l : List Nat) (i : Nat) : Nat := l.getD i 0

/-- The blake2b message schedule (RFC 7693 section 2.7). -/
def blakeSigma : List (List Nat) :=
  [[0, 1, 2, 3, 4, 5, 6, 7, 8, 9, 10, 11, 12, 13, 14, 15],
   [14, 10, 4, 8, 9, 15, 13, 6, 1, 12, 0, 2, 11, 7, 5, 3],
   [11, 8, 12, 0, 5, 2, 15, 13, 10, 14, 3, 6, 7, 1, 9, 4],
   [7, 9, 3, 1, 13, 12, 11, 14, 2, 6, 5, 10, 4, 0, 15, 8],
   [9, 0, 5, 7, 2, 4, 10, 15, 14, 1, 11, 12, 6, 8, 3, 13],
   [2, 12, 6, 10, 0, 11, 8, 3, 4, 13, 7, 5, 15, 14, 1, 9],
   [12, 5, 1, 15, 14, 13, 4, 10, 0, 7, 6, 3, 9, 2, 8, 11],
   [13, 11, 7, 14, 12, 1, 3, 9, 5, 0, 15, 4, 8, 6, 2, 10],
   [6, 15, 14, 9, 11, 3, 0, 8, 12, 2, 13, 7, 1, 4, 10, 5],
   [10, 2, 8, 4, 7, 6, 1, 5, 15, 11, 9, 14, 3, 12, 13, 0]]

/-- The blake2b initialisation vector (RFC 7693 section 2.6). -/
def blakeIV : List Nat :=
  [0x6a09e667f3bcc908, 0xbb67ae8584caa73b, 0x3c6ef372fe94f82b, 0xa54ff53a5f1d36f1,
   0x510e527fade682d1, 0x9b05688c2b3e6c1f, 0x1f83d9abfb41bd6b, 0x5be0cd19137e2179]

/-- The blake2b `G` mixing function on the 16-word work vector. -/
def gMix (v : List Nat) (a b c d x y : Nat) : List Nat :=
  let va := add64 (add64 (getN v a) (getN v b)) x
  let vd := ror64 (Nat.xor (getN v d) va) 32
  let vc := add64 (getN v c) vd
  let vb := ror64 (Nat.xor (getN v b) vc) 24
  let va2 := add64 (add64 va vb) y
  let vd2 := ror64 (Nat.xor vd va2) 16
  let vc2 := add64 vc vd2
  let vb2 := ror64 (Nat.xor vb vc2) 63
  ((((v.set a va2).set b vb2).set c vc2).set d vd2)

/-- One blake2b round: eight `G` applications under the schedule row `s`. -/
def blakeRound (m v : List Nat) (s : List Nat) : List Nat :=
  let v := gMix v 0 4 8 12 (getN m (getN s 0)) (getN m (getN s 1))
  let v := gMix v 1 5 9 13 (getN m (getN s 2)) (getN m (getN s 3))
  let v := gMix v 2 6 10 14 (getN m (getN s 4)) (getN m (getN s 5))
  let v := gMix v 3 7 11 15 (getN m (getN s 6)) (getN m (getN s 7))
  let v := gMix v 0 5 10 15 (getN m (getN s 8)) (getN m (getN s 9))
  let v := gMix v 1 6 11 12 (getN m (getN s 10)) (getN m (getN s 11))
  let v := gMix v 2 7 8 13 (getN m (getN s 12)) (getN m (getN s 13))
  let v := gMix v 3 4 9 14 (getN m (getN s 14)) (getN m (getN s 15))
  v

/-- Little-endian bytes to a word. -/
def bytesToWord (bs : List Nat) : Nat :=
  bs.foldr (fun b acc => b + 256 * acc) 0

/-- A 128-byte block as sixteen little-endian 64-bit words. -/
def toWords16 (bs : List Nat) : List Nat :=
  (List.range 16).map (fun j => bytesToWord ((bs.drop (8 * j)).take 8))

def pad128 (bs : List Nat) : List Nat := bs ++ List.replicate (128 - bs.length) 0

/-- The blake2b compression function `F` (twelve rounds), for byte offset `t`
and the final-block flag. -/
def blakeCompress (h m : List Nat) (t : Nat) (last : Bool) : List Nat :=
  let v := h ++ blakeIV
  let v := v.set 12 (Nat.xor (getN v 12) (t % word64))
  let v := v.set 13 (Nat.xor (getN v 13) (t / word64))
  let v := if last then v.set 14 (Nat.xor (getN v 14) (word64 - 1)) else v
  let v := (List.range 12).foldl (fun v r => blakeRound m v (blakeSigma.getD (r % 10) [])) v
  (List.range 8).map (fun i => Nat.xor (getN h i) (Nat.xor (getN v i) (getN v (i + 8))))

/-- A 64-bit word as eight little-endian bytes. -/
def wordToBytes (x : Nat) : List Nat :=
  [x % 256, x / 2 ^ 8 % 256, x / 2 ^ 16 % 256, x / 2 ^ 24 % 256,
   x / 2 ^ 32 % 256, x / 2 ^ 40 % 256, x / 2 ^ 48 % 256, x / 2 ^ 56 % 256]

/-- blake2b with a 16-byte digest and no key, for messages of at most one
block: the `blake2_128` hasher of the storage layer (parameter word
`0x01010010` = depth 1, fanout 1, digest length 16). -/
def blake2_128 (msg : List Nat) : List Nat :=
  let h0 := blakeIV.set 0 (Nat.xor (getN blakeIV 0) 0x01010010)
  let h := blakeCompress h0 (toWords16 (pad128 msg)) msg.length true
  wordToBytes (getN h 0) ++ wordToBytes (getN h 1)

/-- SCALE encoding of a `u32`: four little-endian bytes. -/
def encodeU32 (n : Nat) : List Nat :=
  [n % 256, n / 2 ^ 8 % 256, n / 2 ^ 16 % 256, n / 2 ^ 24 % 256]

/-- The `Blake2_128Concat` storage-key suffix of a proposal index:
`blake2_128(SCALE(key)) ++ SCALE(key)`. The `Proposals` map iterates its
entries in the lexicographic order of these suffixes. -/
def blakeKey (i : Nat) : List Nat := blake2_128 (encodeU32 i) ++ encodeU32 i

/-- Lexicographic strict order on byte strings, the storage-key order. -/
def lexLt : List Nat → List Nat → Bool
  | [], [] => false
  | [], _ :: _ => true
  | _ :: _, [] => false
  | a :: as2, b :: bs2 => if a < b then true else if b < a then false else lexLt as2 bs2

inductive Vote where
  | Aye
  | Nay
  | Abstain
deriving DecidableEq, Repr

inductive ProposalStatus where
  | NotStarted
  | InProgress
  | Completed
deriving DecidableEq, Repr

structure Proposal where
  proposal_index : Nat
  text : Nat
  proposer : Nat
  end_block : Nat
  status : ProposalStatus
deriving DecidableEq, Repr

/-- Dispatch errors: the pallet's `Error` enum plus the origin failure. -/
inductive Err where
  | BadOrigin
  | StorageOverflow
  | NotRegisteredVoter
  | ProposalNotFound
  | ProposalNotActive
  | ProposalAlreadyStarted
  | NotEnoughBalance
  | NotReservedTokens
  | VoterAlreadyVoted
  | NotEnoughReservedTokens
  | InsufficientFee
  | VoterAlreadyRegistered
  | InvalidTokensAmountToReserve
  | AtLeastOneProposalNotRegisteredOrNotActive
  | InvalidTokensAmountToUnreserve
  | SubstractionOverflow
  | SlashFailed
  | AdditionOverflow
  | LedgerReserveFailed
deriving DecidableEq, Repr

inductive Event where
  | VoterRegistered (voter_id : Nat) (initial_balance : Nat)
  | NewProposalCreated (proposal_index : Nat) (text : Nat) (end_block : Nat)
  | TokensReserved (who : Nat) (amount : Nat)
  | ProposalStarted (proposal_index : Nat)
  | ProposalVoted (proposal_index : Nat) (vote : Vote)
  | ProposalsVoted (proposals : List Nat)
  | TokensUnreserved (who : Nat) (amount : Nat) (updated_balance : Nat)
  | VotingEnded (winner : Nat)
deriving DecidableEq, Repr

inductive Origin where
  | Root
  | Signed (who : Nat)
deriving DecidableEq, Repr

/-- Association-list lookup, modelling a storage-map read. -/
def lookupAL {α β : Type} [DecidableEq α] : List (α × β) → α → Option β
  | [], _ => none
  | (k, v) :: rest, k0 => if k0 = k then some v else lookupAL rest k0

/-- Association-list insert-or-replace, modelling a storage-map write:
an existing key is overwritten in place, a fresh key is appended. -/
def setAL {α β : Type} [DecidableEq α] : List (α × β) → α → β → List (α × β)
  | [], k0, v0 => [(k0, v0)]
  | (k, v) :: rest, k0, v0 =>
    if k0 = k then (k0, v0) :: rest else (k, v) :: setAL rest k0 v0

/-- The whole observable state: the three pallet tables, the host ledger
balances (free and reserved, per account, default `0`), and the event queue. -/
structure State where
  registeredVoters : List (Nat × Bool)
  proposals : List (Nat × Proposal)
  ayeVotes : List ((Nat × Nat) × Nat)
  free : List (Nat × Nat)
  reservedBal : List (Nat × Nat)
  events : List Event
deriving DecidableEq, Repr

def deposit_event (s : State) (e : Event) : State :=
  { s with events := s.events ++ [e] }

/-- Modelled from the spec: the host Ledger's `free_balance` query
(`Currency` is host code, outside `src/`). -/
def freeBalance (s : State) (who : Nat) : Nat :=
  (lookupAL s.free who).getD 0

/-- Modelled from the spec: the host Ledger's `reserved_balance` query. -/
def reservedBalance (s : State) (who : Nat) : Nat :=
  (lookupAL s.reservedBal who).getD 0

/-- Modelled from the spec: the host Ledger's total balance, the sum of the
free and the reserved part. -/
def totalBalance (s : State) (who : Nat) : Nat :=
  freeBalance s who + reservedBalance s who

/-- Modelled from the spec: `set_free_balance` / `make_free_balance_be`,
an absolute overwrite of the free part. -/
def make_free_balance_be (s : State) (who : Nat) (amount : Nat) : State :=
  { s with free := setAL s.free who amount }

/-- Modelled from the spec: `Currency::reserve`, which moves `amount` from
free to reserved and fails if the free balance is insufficient. -/
def ledgerReserve (s : State) (who : Nat) (amount : Nat) : Except Err State :=
  if amount ≤ freeBalance s who then
    .ok { s with
      free := setAL s.free who (freeBalance s who - amount),
      reservedBal := setAL s.reservedBal who (reservedBalance s who + amount) }
  else .error .LedgerReserveFailed

/-- Modelled from the spec: `Currency::unreserve`, best-effort, clamping to
the available reserved balance. -/
def ledgerUnreserve (s : State) (who : Nat) (amount : Nat) : State :=
  let moved := min amount (reservedBalance s who)
  { s with
    reservedBal := setAL s.reservedBal who (reservedBalance s who - moved),
    free := setAL s.free who (freeBalance s who + moved) }

/-- Modelled from the spec: `Currency::slash`, a best-effort burn taking
from the free balance first, then from the reserved balance. -/
def ledgerSlash (s : State) (who : Nat) (amount : Nat) : State :=
  let fromFree := min amount (freeBalance s who)
  let rest := amount - fromFree
  let fromReserved := min rest (reservedBalance s who)
  { s with
    free := setAL s.free who (freeBalance s who - fromFree),
    reservedBal := setAL s.reservedBal who (reservedBalance s who - fromReserved) }

def is_voter_registered (s : State) (who : Nat) : Bool :=
  (lookupAL s.registeredVoters who).isSome

def is_proposal_registered (s : State) (proposal_index : Nat) : Bool :=
  (lookupAL s.proposals proposal_index).isSome

def get_proposal (s : State) (proposal_index : Nat) : Option Proposal :=
  lookupAL s.proposals proposal_index

def is_proposal_active (s : State) (proposal_index : Nat) : Bool :=
  match get_proposal s proposal_index with
  | some proposal =>
    proposal.status == ProposalStatus.InProgress && is_proposal_registered s proposal_index
  | none => false

def get_proposal_end_block (s : State) (proposal_index : Nat) : Nat :=
  ((get_proposal s proposal_index).map (fun p => p.end_block)).getD 0

def voter_has_voted (s : State) (proposal_index : Nat) (who : Nat) : Bool :=
  (lookupAL s.ayeVotes (proposal_index, who)).isSome

def get_aye_votes_balance (s : State) (proposal_index : Nat) (who : Nat) : Nat :=
  (lookupAL s.ayeVotes (proposal_index, who)).getD 0

def get_voter_balance (s : State) (who : Nat) : Nat :=
  totalBalance s who - reservedBalance s who

def checked_sub_between_balances (a b : Nat) : Except Err Nat :=
  if b ≤ a then .ok (a - b) else .error .SubstractionOverflow

def checked_add_between_balances (a b : Nat) : Except Err Nat :=
  if a + b < balanceMod then .ok (a + b) else .error .AdditionOverflow

def checked_div_between_balances (a b : Nat) : Except Err Nat :=
  if b = 0 then .error .SlashFailed else .ok (a / b)

/-- The `Proposals::mutate_exists` write of `update_proposal_status_to_completed`.
The source first calls `get_proposal(..).expect(..)`, which panics on a missing
key; the missing-key case (reachable through the expired batch path when
`get_winner` returns the sentinel `0`) is modelled as a no-op, and no theorem
below relies on that case. -/
def update_proposal_status_to_completed (s : State) (proposal_index : Nat) : State :=
  match get_proposal s proposal_index with
  | some proposal =>
    let proposal_updated : Proposal :=
      { proposal_index := proposal_index, text := proposal.text,
        proposer := proposal.proposer, end_block := proposal.end_block,
        status := ProposalStatus.Completed }
    { s with proposals := setAL s.proposals proposal_index proposal_updated }
  | none => s

/-- Total aye weight of one proposal: the `u128` `.sum()` of the `AyeVotes`
records keyed by this proposal index over all voters — an unchecked sum, so
it wraps modulo `2 ^ 128`. -/
def voteTotal (s : State) (proposal_index : Nat) : Nat :=
  (s.ayeVotes.filter (fun kv => kv.1.1 == proposal_index)).foldl
    (fun acc kv => (acc + kv.2) % balanceMod) 0

/-- One step of `get_winner`: update `(max_votes, winner)` on a strict
greater-than comparison against the proposal's total. -/
def winnerStep (s : State) (acc : Nat × Nat) (entry : Nat × Proposal) :
    Nat × Nat :=
  let total_votes := voteTotal s entry.1
  if acc.1 < total_votes then (total_votes, entry.1) else acc

/-- Insertion into a list kept sorted by ascending `Blake2_128Concat` storage
key of the entry's index. -/
def insertByKey (e : Nat × Proposal) : List (Nat × Proposal) → List (Nat × Proposal)
  | [] => [e]
  | f :: rest =>
    if lexLt (blakeKey f.1) (blakeKey e.1) then f :: insertByKey e rest
    else e :: f :: rest

/-- The `Proposals` entries in the order `Proposals::<T>::iter()` yields them:
ascending lexicographic `Blake2_128Concat` storage key. -/
def sortByKey (l : List (Nat × Proposal)) : List (Nat × Proposal) :=
  l.foldr insertByKey []

/-- `get_winner`: scan the proposals table in its storage iteration order —
lexicographic in the blake2-hashed key, not ascending numeric order —
starting from `(0, 0)`. -/
def get_winner (s : State) : Nat :=
  ((sortByKey s.proposals).foldl (winnerStep s) (0, 0)).2

def register_voter (s : State) (origin : Origin) (voter_id : Nat) (fee : Nat) :
    Except Err State :=
  match origin with
  | .Signed _ => .error .BadOrigin
  | .Root =>
    if is_voter_registered s voter_id then .error .VoterAlreadyRegistered
    else if fee = 0 then .error .InsufficientFee
    else
      match checked_sub_between_balances 100 fee with
      | .error e => .error e
      | .ok initial_balance =>
        let s1 := make_free_balance_be s voter_id initial_balance
        let s2 := { s1 with registeredVoters := setAL s1.registeredVoters voter_id true }
        .ok (deposit_event s2 (.VoterRegistered voter_id initial_balance))

def create_proposal (s : State) (origin : Origin) (text : Nat)
    (now : Nat) (votingPeriod : Nat) : Except Err State :=
  match origin with
  | .Root => .error .BadOrigin
  | .Signed proposer =>
    if is_voter_registered s proposer then
      let proposal_index := s.proposals.length + 1
      let end_block := now + votingPeriod
      let proposal : Proposal :=
        { proposal_index := proposal_index, text := text, proposer := proposer,
          end_block := end_block, status := ProposalStatus.NotStarted }
      let s1 := { s with proposals := setAL s.proposals proposal_index proposal }
      .ok (deposit_event s1 (.NewProposalCreated proposal_index text end_block))
    else .error .NotRegisteredVoter

def start_proposal (s : State) (origin : Origin) (proposal_index : Nat)
    (fee : Nat) : Except Err State :=
  match origin with
  | .Root => .error .BadOrigin
  | .Signed who =>
    if is_voter_registered s who then
      match get_proposal s proposal_index with
      | none => .error .ProposalNotFound
      | some proposal =>
        let balance := get_voter_balance s who
        if fee ≤ balance then
          if proposal.status = ProposalStatus.NotStarted then
            if fee = 0 then .error .InsufficientFee
            else
              let proposal_updated : Proposal :=
                { proposal_index := proposal_index, text := proposal.text,
                  proposer := proposal.proposer, end_block := proposal.end_block,
                  status := ProposalStatus.InProgress }
              let s1 := { s with proposals := setAL s.proposals proposal_index proposal_updated }
              let s2 := make_free_balance_be s1 who (balance - fee)
              .ok (deposit_event s2 (.ProposalStarted proposal_index))
          else .error .ProposalAlreadyStarted
        else .error .NotEnoughBalance
    else .error .NotRegisteredVoter

def reserve_tokens (s : State) (origin : Origin) (amount : Nat) : Except Err State :=
  match origin with
  | .Root => .error .BadOrigin
  | .Signed who =>
    if is_voter_registered s who then
      if amount = 0 then .error .InvalidTokensAmountToReserve
      else
        let voter_balance := get_voter_balance s who
        if amount ≤ voter_balance then
          match ledgerReserve s who amount with
          | .error e => .error e
          | .ok s1 => .ok (deposit_event s1 (.TokensReserved who amount))
        else .error .NotEnoughBalance
    else .error .NotRegisteredVoter

def vote_proposal (s : State) (origin : Origin) (proposal_index : Nat)
    (vote : Vote) (now : Nat) : Except Err State :=
  match origin with
  | .Root => .error .BadOrigin
  | .Signed who =>
    if is_voter_registered s who then
      if is_proposal_registered s proposal_index then
        if is_proposal_active s proposal_index then
          let current_block := now
          let proposal_end_block := get_proposal_end_block s proposal_index
          if proposal_end_block ≤ current_block then
            let s1 := update_proposal_status_to_completed s proposal_index
            let winner := get_winner s1
            .ok (deposit_event s1 (.VotingEnded winner))
          else
            let reserved_tokens := reservedBalance s who
            if reserved_tokens = 0 then .error .NotEnoughReservedTokens
            else
              match vote with
              | Vote.Aye =>
                if voter_has_voted s proposal_index who then .error .VoterAlreadyVoted
                else
                  let aye_votes := get_aye_votes_balance s proposal_index who
                  let new_aye_votes := (aye_votes + integer_sqrt reserved_tokens) % balanceMod
                  let s1 := { s with
                    ayeVotes := setAL s.ayeVotes (proposal_index, who) new_aye_votes }
                  let voter_balance := get_voter_balance s1 who
                  let s2 := make_free_balance_be s1 who voter_balance
                  .ok (deposit_event s2 (.ProposalVoted proposal_index vote))
              | _ => .ok s
        else .error .ProposalNotActive
      else .error .ProposalNotFound
    else .error .NotRegisteredVoter

def unreserve_tokens (s : State) (origin : Origin) (amount : Nat) : Except Err State :=
  match origin with
  | .Root => .error .BadOrigin
  | .Signed who =>
    if is_voter_registered s who then
      if amount = 0 then .error .InvalidTokensAmountToUnreserve
      else
        let reserved_tokens := reservedBalance s who
        if amount ≤ reserved_tokens then
          let s1 := ledgerUnreserve s who amount
          match checked_div_between_balances amount 2 with
          | .error _ => .error .SlashFailed
          | .ok half =>
            let s2 := ledgerSlash s1 who half
            let updated_balance := get_voter_balance s2 who
            .ok (deposit_event s2 (.TokensUnreserved who amount updated_balance))
        else .error .NotEnoughReservedTokens
    else .error .NotRegisteredVoter

/-- The per-item loop of `vote_multiple_proposals`. `allIdx` is the index list
of the whole batch, recomputed for the event on every processed `Aye` item. -/
def batchLoop (who : Nat) (allIdx : List Nat) :
    List (Nat × Nat × Vote) → State → Except Err State
  | [], s => .ok s
  | (proposal_index, tokens_to_use, vote) :: rest, s =>
    match vote with
    | Vote.Aye =>
      let aye_votes := get_aye_votes_balance s proposal_index who
      match checked_add_between_balances aye_votes (integer_sqrt tokens_to_use) with
      | .error e => .error e
      | .ok new_aye_votes =>
        let s1 := { s with ayeVotes := setAL s.ayeVotes (proposal_index, who) new_aye_votes }
        let voter_balance := get_voter_balance s1 who
        let s2 := make_free_balance_be s1 who voter_balance
        let s3 := deposit_event s2 (.ProposalsVoted allIdx)
        batchLoop who allIdx rest s3
    | _ => batchLoop who allIdx rest s

def vote_multiple_proposals (s : State) (origin : Origin)
    (proposals : List (Nat × Nat × Vote)) (now : Nat) :
    Except Err State :=
  match origin with
  | .Root => .error .BadOrigin
  | .Signed who =>
    if is_voter_registered s who then
      let are_proposals_registered_and_active := proposals.all (fun proposal =>
        is_proposal_registered s proposal.1 && is_proposal_active s proposal.1)
      if are_proposals_registered_and_active then
        let reserved_tokens := reservedBalance s who
        let total_tokens_to_use :=
          proposals.foldl (fun acc proposal => (acc + proposal.2.1) % balanceMod) 0
        if total_tokens_to_use ≤ reserved_tokens then
          let has_voted_for_any_proposal := proposals.any (fun proposal =>
            voter_has_voted s proposal.1 who)
          if has_voted_for_any_proposal then .error .VoterAlreadyVoted
          else
            let current_block := now
            let proposals_are_still_active := proposals.all (fun proposal =>
              current_block < get_proposal_end_block s proposal.1)
            if proposals_are_still_active then
              batchLoop who (proposals.map (fun proposal => proposal.1)) proposals s
            else
              let winner := get_winner s
              let s1 := update_proposal_status_to_completed s winner
              .ok (deposit_event s1 (.VotingEnded winner))
        else .error .NotEnoughReservedTokens
      else .error .AtLeastOneProposalNotRegisteredOrNotActive
    else .error .NotRegisteredVoter

/-- The seven dispatchables as one call type, for statements quantifying over
every operation. -/
inductive Call where
  | RegisterVoter (voter_id : Nat) (fee : Nat)
  | CreateProposal (text : Nat)
  | StartProposal (proposal_index : Nat) (fee : Nat)
  | ReserveTokens (amount : Nat)
  | VoteProposal (proposal_index : Nat) (vote : Vote)
  | UnreserveTokens (amount : Nat)
  | VoteMultipleProposals (items : List (Nat × Nat × Vote))
deriving DecidableEq, Repr

def callBody (votingPeriod now : Nat) (origin : Origin) (c : Call) (s : State) :
    Except Err State :=
  match c with
  | .RegisterVoter voter_id fee => register_voter s origin voter_id fee
  | .CreateProposal text => create_proposal s origin text now votingPeriod
  | .StartProposal proposal_index fee => start_proposal s origin proposal_index fee
  | .ReserveTokens amount => reserve_tokens s origin amount
  | .VoteProposal proposal_index vote => vote_proposal s origin proposal_index vote now
  | .UnreserveTokens amount => unreserve_tokens s origin amount
  | .VoteMultipleProposals items => vote_multiple_proposals s origin items now

/-- Modelled from the spec: the host dispatch layer (outside `src/`) runs each
call inside a transactional boundary, so a failed call commits none of its
writes and the pre-state is returned unchanged alongside the error. -/
def dispatch (votingPeriod now : Nat) (origin : Origin) (c : Call) (s : State) :
    Option Err × State :=
  match callBody votingPeriod now origin c s with
  | .ok s2 => (none, s2)
  | .error e => (some e, s)

theorem lookupAL_setAL_self {α β : Type} [DecidableEq α] (l : List (α × β)) (k : α) (v : β) :
    lookupAL (setAL l k v) k = some v := by
  induction l with
  | nil => simp [setAL, lookupAL]
  | cons hd tl ih =>
    by_cases h : k = hd.1
    · simp [setAL, lookupAL, h]
    · simp [setAL, lookupAL, h, ih]

theorem lookupAL_setAL_ne {α β : Type} [DecidableEq α] (l : List (α × β)) (k k2 : α) (v : β)
    (h : k2 ≠ k) : lookupAL (setAL l k v) k2 = lookupAL l k2 := by
  induction l with
  | nil => simp [setAL, lookupAL, h]
  | cons hd tl ih =>
    by_cases hk : k = hd.1
    · simp [setAL, lookupAL, hk, h]
      rw [if_neg (by rw [← hk]; exact h), if_neg (by rw [hk] at h; exact h)]
    · simp only [setAL, if_neg hk]
      by_cases hk2 : k2 = hd.1
      · simp [lookupAL, hk2]
      · simp [lookupAL, hk2, ih]

theorem sqrtGo_spec (n : Nat) :
    ∀ (fuel lo hi : Nat), lo ≤ hi → hi - lo ≤ fuel → lo * lo ≤ n →
      n < (hi + 1) * (hi + 1) →
      sqrtGo n fuel lo hi * sqrtGo n fuel lo hi ≤ n ∧
        n < (sqrtGo n fuel lo hi + 1) * (sqrtGo n fuel lo hi + 1) := by
  intro fuel
  induction fuel with
  | zero =>
    intro lo hi hle hfuel hlo hhi
    have : hi = lo := by omega
    subst this
    exact ⟨hlo, hhi⟩
  | succ fuel ih =>
    intro lo hi hle hfuel hlo hhi
    by_cases hstop : hi ≤ lo
    · have : hi = lo := by omega
      subst this
      simpa [sqrtGo, hstop] using ⟨hlo, hhi⟩
    · have hlt : lo < hi := by omega
      have hmid1 : lo + 1 ≤ (lo + hi + 1) / 2 := by
        rw [Nat.le_div_iff_mul_le (by omega : 0 < 2)]
        omega
      have hmid2 : (lo + hi + 1) / 2 < hi + 1 := by
        apply Nat.div_lt_of_lt_mul
        omega
      by_cases hbr : (lo + hi + 1) / 2 * ((lo + hi + 1) / 2) ≤ n
      · have := ih ((lo + hi + 1) / 2) hi (by omega) (by omega) hbr hhi
        simpa [sqrtGo, hstop, hbr] using this
      · have hup : n < ((lo + hi + 1) / 2 - 1 + 1) * ((lo + hi + 1) / 2 - 1 + 1) := by
          have : (lo + hi + 1) / 2 - 1 + 1 = (lo + hi + 1) / 2 := by omega
          rw [this]
          omega
        have := ih lo ((lo + hi + 1) / 2 - 1) (by omega) (by omega) hlo hup
        simpa [sqrtGo, hstop, hbr] using this

theorem integer_sqrt_eq_sqrt (n : Nat) : integer_sqrt n = Nat.sqrt n := by
  have h := sqrtGo_spec n n 0 n (Nat.zero_le n) (by omega) (by simp) (by nlinarith)
  unfold integer_sqrt
  refine le_antisymm (Nat.le_sqrt.mpr h.1) ?_
  have h2 := Nat.sqrt_lt.mpr h.2
  omega

def emptyState : State :=
  { registeredVoters := [], proposals := [], ayeVotes := [], free := [],
    reservedBal := [], events := [] }

/-- C2: for every operation and every pre-state, a call that returns an error
leaves every table (voters, proposals, aye-vote records) and every ledger
balance identical to its pre-call value; in particular a
`vote_multiple_proposals` batch failing with `AdditionOverflow` on a later
item keeps no vote record written for an earlier item. -/
theorem dispatch_error_preserves_state (votingPeriod now : Nat) (o : Origin)
    (c : Call) (s : State) (e : Err)
    (h : (dispatch votingPeriod now o c s).1 = some e) :
    (dispatch votingPeriod now o c s).2 = s := by
  unfold dispatch at h ⊢
  cases hcb : callBody votingPeriod now o c s with
  | ok s2 => rw [hcb] at h; simp at h
  | error e2 => simp

theorem dispatch_error_preserves_state_witness :
    (dispatch 100 10 Origin.Root (Call.RegisterVoter 1 0) emptyState).1 =
      some Err.InsufficientFee ∧
    (dispatch 100 10 Origin.Root (Call.RegisterVoter 1 0) emptyState).2 = emptyState :=
  ⟨rfl, dispatch_error_preserves_state 100 10 Origin.Root (Call.RegisterVoter 1 0)
    emptyState Err.InsufficientFee rfl⟩

/-- C3: for an unregistered voter, a root-origin `register_voter` fails with
`InsufficientFee` when `fee = 0`, fails with the arithmetic-underflow error
`SubstractionOverflow` when `fee > 100`, and for `0 < fee ≤ 100` succeeds,
overwrites the voter's free balance to exactly `100 - fee`, marks the voter
registered, emits `VoterRegistered`, and makes any second `register_voter`
for the same voter fail with `VoterAlreadyRegistered`. -/
theorem register_voter_fee_spec (s : State) (voter : Nat) (fee : Nat)
    (hnew : is_voter_registered s voter = false) :
    (fee = 0 → register_voter s Origin.Root voter fee = Except.error Err.InsufficientFee) ∧
    (100 < fee → register_voter s Origin.Root voter fee =
      Except.error Err.SubstractionOverflow) ∧
    (0 < fee → fee ≤ 100 →
      ∃ s2, register_voter s Origin.Root voter fee = Except.ok s2 ∧
        freeBalance s2 voter = 100 - fee ∧
        is_voter_registered s2 voter = true ∧
        s2.events = s.events ++ [Event.VoterRegistered voter (100 - fee)] ∧
        ∀ fee2, register_voter s2 Origin.Root voter fee2 =
          Except.error Err.VoterAlreadyRegistered) := by
  refine ⟨?_, ?_, ?_⟩
  · intro h0
    simp [register_voter, hnew, h0]
  · intro h100
    have hne : ¬ (fee = 0) := by omega
    have hgt : ¬ (fee ≤ 100) := by omega
    simp [register_voter, hnew, hne, checked_sub_between_balances, hgt]
  · intro hpos hle
    have hne : ¬ (fee = 0) := by omega
    simp only [register_voter, hnew, Bool.false_eq_true, if_false, hne,
      checked_sub_between_balances, if_pos hle]
    refine ⟨_, rfl, ?_, ?_, ?_, ?_⟩
    · simp [freeBalance, deposit_event, make_free_balance_be, lookupAL_setAL_self]
    · simp [is_voter_registered, deposit_event, make_free_balance_be, lookupAL_setAL_self]
    · simp [deposit_event, make_free_balance_be]
    · intro fee2
      simp [register_voter, is_voter_registered, deposit_event, make_free_balance_be,
        lookupAL_setAL_self]

theorem register_voter_fee_spec_witness :
    register_voter emptyState Origin.Root 1 0 = Except.error Err.InsufficientFee ∧
    register_voter emptyState Origin.Root 1 101 = Except.error Err.SubstractionOverflow ∧
    (∃ s2, register_voter emptyState Origin.Root 1 5 = Except.ok s2 ∧
      freeBalance s2 1 = 95 ∧
      is_voter_registered s2 1 = true ∧
      s2.events = emptyState.events ++ [Event.VoterRegistered 1 95] ∧
      ∀ fee2, register_voter s2 Origin.Root 1 fee2 =
        Except.error Err.VoterAlreadyRegistered) := by
  have h0 := (register_voter_fee_spec emptyState 1 0 (by decide)).1 rfl
  have h101 := (register_voter_fee_spec emptyState 1 101 (by decide)).2.1 (by omega)
  have h5 := (register_voter_fee_spec emptyState 1 5 (by decide)).2.2 (by omega) (by omega)
  exact ⟨h0, h101, h5⟩

def c7Proposal : Proposal :=
  { proposal_index := 1, text := 0, proposer := 1, end_block := 100,
    status := ProposalStatus.InProgress }

def c7State : State :=
  { registeredVoters := [(1, true)], proposals := [(1, c7Proposal)], ayeVotes := [],
    free := [], reservedBal := [], events := [] }

/-- C7 counterexample: voter `1` is registered, proposal `1` exists with
status `InProgress` (not `NotStarted`), but the caller's free balance is `0`,
below the fee `10`; the call fails with `NotEnoughBalance`, not with
`ProposalAlreadyStarted` as the claim asserts, because the source checks the
balance before the status. -/
theorem start_proposal_balance_before_status_cex :
    start_proposal c7State (Origin.Signed 1) 1 10 = Except.error Err.NotEnoughBalance ∧
    Err.NotEnoughBalance ≠ Err.ProposalAlreadyStarted := by
  constructor
  · rfl
  · intro h
    cases h

/-- C7 amended: `start_proposal` checks, in order, caller registered,
proposal exists, caller's free balance at least the fee, status `NotStarted`,
and fee positive; hence for every registered caller and every existing
proposal whose status is not `NotStarted`, the call fails with
`ProposalAlreadyStarted` regardless of the fee amount, provided the caller's
free balance covers the fee. -/
theorem start_proposal_already_started_amended (s : State) (who : Nat)
    (proposal_index : Nat) (fee : Nat) (prop : Proposal)
    (hr : is_voter_registered s who = true)
    (hp : get_proposal s proposal_index = some prop)
    (hst : prop.status ≠ ProposalStatus.NotStarted)
    (hbal : fee ≤ get_voter_balance s who) :
    start_proposal s (Origin.Signed who) proposal_index fee =
      Except.error Err.ProposalAlreadyStarted := by
  rw [start_proposal]
  simp only [hr, if_true, hp]
  rw [if_pos hbal, if_neg hst]

theorem start_proposal_already_started_amended_witness :
    start_proposal
      { registeredVoters := [(1, true)], proposals := [(1, c7Proposal)], ayeVotes := [],
        free := [(1, 50)], reservedBal := [], events := [] }
      (Origin.Signed 1) 1 10 = Except.error Err.ProposalAlreadyStarted :=
  start_proposal_already_started_amended _ 1 1 10 c7Proposal (by decide) (by decide)
    (by decide) (by decide)

/-- C4: a registered caller with positive reserved balance, voting `Aye` on an
`InProgress`, unexpired proposal it has not voted on yet, succeeds and the
stored vote-record value is exactly `floor (sqrt reserved)`, not added to any
prior value. -/
theorem vote_proposal_aye_quadratic_weight (s : State) (who proposal_index now : Nat)
    (prop : Proposal)
    (hr : is_voter_registered s who = true)
    (hp : get_proposal s proposal_index = some prop)
    (hst : prop.status = ProposalStatus.InProgress)
    (hlive : now < prop.end_block)
    (hres : 0 < reservedBalance s who)
    (hresb : reservedBalance s who < balanceMod)
    (hnov : voter_has_voted s proposal_index who = false) :
    ∃ s2, vote_proposal s (Origin.Signed who) proposal_index Vote.Aye now = Except.ok s2 ∧
      lookupAL s2.ayeVotes (proposal_index, who) =
        some (Nat.sqrt (reservedBalance s who)) := by
  have hp2 : lookupAL s.proposals proposal_index = some prop := hp
  have hreg : is_proposal_registered s proposal_index = true := by
    simp [is_proposal_registered, hp2]
  have hact : is_proposal_active s proposal_index = true := by
    simp [is_proposal_active, get_proposal, hp2, hst, hreg]
  have hend : get_proposal_end_block s proposal_index = prop.end_block := by
    simp [get_proposal_end_block, get_proposal, hp2]
  have hnone : lookupAL s.ayeVotes (proposal_index, who) = none := by
    rw [voter_has_voted] at hnov
    cases hcase : lookupAL s.ayeVotes (proposal_index, who) with
    | none => rfl
    | some v => rw [hcase] at hnov; simp at hnov
  have hzero : get_aye_votes_balance s proposal_index who = 0 := by
    simp [get_aye_votes_balance, hnone]
  have hmod : (get_aye_votes_balance s proposal_index who +
      integer_sqrt (reservedBalance s who)) % balanceMod =
      Nat.sqrt (reservedBalance s who) := by
    rw [hzero, Nat.zero_add, integer_sqrt_eq_sqrt, Nat.mod_eq_of_lt]
    exact lt_of_le_of_lt (Nat.sqrt_le_self _) hresb
  rw [vote_proposal]
  simp only [hr, if_true, hreg, hact, hend, if_neg (show ¬ (prop.end_block ≤ now) by omega),
    if_neg (show ¬ (reservedBalance s who = 0) by omega), hnov, Bool.false_eq_true, if_false,
    hmod]
  refine ⟨_, rfl, ?_⟩
  simp [deposit_event, make_free_balance_be, lookupAL_setAL_self]

def w4Proposal : Proposal :=
  { proposal_index := 1, text := 0, proposer := 1, end_block := 100,
    status := ProposalStatus.InProgress }

def w4State : State :=
  { registeredVoters := [(1, true)], proposals := [(1, w4Proposal)], ayeVotes := [],
    free := [(1, 45)], reservedBal := [(1, 50)], events := [] }

theorem vote_proposal_aye_quadratic_weight_witness :
    ∃ s2, vote_proposal w4State (Origin.Signed 1) 1 Vote.Aye 10 = Except.ok s2 ∧
      lookupAL s2.ayeVotes (1, 1) = some 7 := by
  have h := vote_proposal_aye_quadratic_weight w4State 1 1 10 w4Proposal (by decide)
    (by decide) (by decide) (by decide) (by decide) (by decide) (by decide)
  have h50 : Nat.sqrt (reservedBalance w4State 1) = 7 := by
    rw [← integer_sqrt_eq_sqrt]; decide
  rw [h50] at h
  exact h

/-- C5: when a registered caller votes on an `InProgress` proposal whose
`end_block` has been reached (`end_block ≤ now`), the call marks that proposal
`Completed`, runs winner selection, emits `VotingEnded` with that winner, and
returns success; no vote record, balance or registration changes, whatever
the caller's reserved balance or prior votes. -/
theorem vote_proposal_deadline_completes (s : State) (who proposal_index now : Nat)
    (v : Vote) (prop : Proposal)
    (hr : is_voter_registered s who = true)
    (hp : get_proposal s proposal_index = some prop)
    (hst : prop.status = ProposalStatus.InProgress)
    (hdead : prop.end_block ≤ now) :
    ∃ s2, vote_proposal s (Origin.Signed who) proposal_index v now = Except.ok s2 ∧
      s2.ayeVotes = s.ayeVotes ∧ s2.free = s.free ∧ s2.reservedBal = s.reservedBal ∧
      s2.registeredVoters = s.registeredVoters ∧
      get_proposal s2 proposal_index = some
        { proposal_index := proposal_index, text := prop.text, proposer := prop.proposer,
          end_block := prop.end_block, status := ProposalStatus.Completed } ∧
      s2.events = s.events ++
        [Event.VotingEnded (get_winner (update_proposal_status_to_completed s proposal_index))] := by
  have hp2 : lookupAL s.proposals proposal_index = some prop := hp
  have hreg : is_proposal_registered s proposal_index = true := by
    simp [is_proposal_registered, hp2]
  have hact : is_proposal_active s proposal_index = true := by
    simp [is_proposal_active, get_proposal, hp2, hst, hreg]
  have hend : get_proposal_end_block s proposal_index = prop.end_block := by
    simp [get_proposal_end_block, get_proposal, hp2]
  have hupd : update_proposal_status_to_completed s proposal_index =
      { s with proposals := setAL s.proposals proposal_index ⟨proposal_index, prop.text, prop.proposer, prop.end_block, ProposalStatus.Completed⟩ } := by
    rw [update_proposal_status_to_completed, get_proposal, hp2]
  rw [vote_proposal]
  simp only [hr, if_true, hreg, hact, hend, if_pos hdead]
  refine ⟨_, rfl, ?_, ?_, ?_, ?_, ?_, ?_⟩
  · simp [deposit_event, hupd]
  · simp [deposit_event, hupd]
  · simp [deposit_event, hupd]
  · simp [deposit_event, hupd]
  · simp [get_proposal, deposit_event, hupd, lookupAL_setAL_self]
  · simp [deposit_event, hupd]

theorem vote_proposal_deadline_completes_witness :
    ∃ s2, vote_proposal w4State (Origin.Signed 1) 1 Vote.Nay 200 = Except.ok s2 ∧
      s2.ayeVotes = w4State.ayeVotes ∧ s2.free = w4State.free ∧
      s2.reservedBal = w4State.reservedBal ∧
      s2.registeredVoters = w4State.registeredVoters ∧
      get_proposal s2 1 = some
        { proposal_index := 1, text := w4Proposal.text, proposer := w4Proposal.proposer,
          end_block := w4Proposal.end_block, status := ProposalStatus.Completed } ∧
      s2.events = w4State.events ++
        [Event.VotingEnded (get_winner (update_proposal_status_to_completed w4State 1))] :=
  vote_proposal_deadline_completes w4State 1 1 200 Vote.Nay w4Proposal (by decide)
    (by decide) (by decide) (by decide)

/-- C6: a registered caller holding a vote record on an `InProgress`,
unexpired proposal, voting `Aye` again with positive reserved balance, fails
with `VoterAlreadyVoted`, and the whole state (the existing record included)
is unchanged. -/
theorem vote_proposal_double_vote_rejected (period : Nat) (s : State)
    (who proposal_index now : Nat) (prop : Proposal)
    (hr : is_voter_registered s who = true)
    (hp : get_proposal s proposal_index = some prop)
    (hst : prop.status = ProposalStatus.InProgress)
    (hlive : now < prop.end_block)
    (hres : 0 < reservedBalance s who)
    (hvoted : voter_has_voted s proposal_index who = true) :
    dispatch period now (Origin.Signed who) (Call.VoteProposal proposal_index Vote.Aye) s =
      (some Err.VoterAlreadyVoted, s) := by
  have hp2 : lookupAL s.proposals proposal_index = some prop := hp
  have hreg : is_proposal_registered s proposal_index = true := by
    simp [is_proposal_registered, hp2]
  have hact : is_proposal_active s proposal_index = true := by
    simp [is_proposal_active, get_proposal, hp2, hst, hreg]
  have hend : get_proposal_end_block s proposal_index = prop.end_block := by
    simp [get_proposal_end_block, get_proposal, hp2]
  have hbody : vote_proposal s (Origin.Signed who) proposal_index Vote.Aye now =
      Except.error Err.VoterAlreadyVoted := by
    rw [vote_proposal]
    simp only [hr, if_true, hreg, hact, hend,
      if_neg (show ¬ (prop.end_block ≤ now) by omega),
      if_neg (show ¬ (reservedBalance s who = 0) by omega), hvoted, if_true]
  rw [dispatch, callBody, hbody]

def w6State : State :=
  { registeredVoters := [(1, true)], proposals := [(1, w4Proposal)],
    ayeVotes := [((1, 1), 7)], free := [(1, 45)], reservedBal := [(1, 50)], events := [] }

theorem vote_proposal_double_vote_rejected_witness :
    dispatch 100 10 (Origin.Signed 1) (Call.VoteProposal 1 Vote.Aye) w6State =
      (some Err.VoterAlreadyVoted, w6State) :=
  vote_proposal_double_vote_rejected 100 w6State 1 1 10 w4Proposal (by decide) (by decide)
    (by decide) (by decide) (by decide) (by decide)

/-- C8: for a registered caller and `0 < amount ≤ reserved`,
`unreserve_tokens` succeeds, moves `amount` from reserved to free, then burns
`floor (amount / 2)` from the caller's balance, crediting it to no other
account. -/
theorem unreserve_tokens_penalty (s : State) (who amount : Nat)
    (hr : is_voter_registered s who = true)
    (h0 : 0 < amount)
    (hle : amount ≤ reservedBalance s who) :
    ∃ s2, unreserve_tokens s (Origin.Signed who) amount = Except.ok s2 ∧
      reservedBalance s2 who = reservedBalance s who - amount ∧
      freeBalance s2 who = freeBalance s who + amount - amount / 2 ∧
      (∀ a, a ≠ who → freeBalance s2 a = freeBalance s a ∧
        reservedBalance s2 a = reservedBalance s a) := by
  have hm1 : min amount (reservedBalance s who) = amount := min_eq_left hle
  have hm2 : min (amount / 2) (freeBalance s who + amount) = amount / 2 :=
    min_eq_left (by omega)
  have hm3 : ∀ n : Nat, min (amount / 2 - amount / 2) n = 0 := by
    intro n; simp
  simp only [freeBalance, reservedBalance] at hm1 hm2
  rw [unreserve_tokens]
  simp only [hr, if_true, if_neg (show ¬ (amount = 0) by omega), if_pos hle,
    checked_div_between_balances, if_neg (show ¬ (2 = 0) by omega)]
  refine ⟨_, rfl, ?_, ?_, ?_⟩
  · simp [ledgerUnreserve, ledgerSlash, deposit_event, freeBalance, reservedBalance,
      hm1, hm2, hm3, lookupAL_setAL_self]
  · simp [ledgerUnreserve, ledgerSlash, deposit_event, freeBalance, reservedBalance,
      hm1, hm2, hm3, lookupAL_setAL_self]
  · intro a ha
    constructor
    · simp [ledgerUnreserve, ledgerSlash, deposit_event, freeBalance, reservedBalance,
        hm1, hm2, hm3, lookupAL_setAL_self, lookupAL_setAL_ne _ _ _ _ ha]
    · simp [ledgerUnreserve, ledgerSlash, deposit_event, freeBalance, reservedBalance,
        hm1, hm2, hm3, lookupAL_setAL_self, lookupAL_setAL_ne _ _ _ _ ha]

theorem unreserve_tokens_penalty_witness :
    ∃ s2, unreserve_tokens w4State (Origin.Signed 1) 50 = Except.ok s2 ∧
      reservedBalance s2 1 = 0 ∧ freeBalance s2 1 = 70 := by
  obtain ⟨s2, h1, h2, h3, _⟩ :=
    unreserve_tokens_penalty w4State 1 50 (by decide) (by decide) (by decide)
  refine ⟨s2, h1, ?_, ?_⟩
  · rw [h2]; decide
  · rw [h3]; decide

theorem batchLoop_dup (who p : Nat) (idxs : List Nat) :
    ∀ (amounts : List Nat) (s0 : State) (v : Nat),
      get_aye_votes_balance s0 p who = v →
      v + (amounts.map integer_sqrt).sum < balanceMod →
      ∃ s2, batchLoop who idxs (amounts.map (fun a => (p, a, Vote.Aye))) s0 = Except.ok s2 ∧
        (lookupAL s2.ayeVotes (p, who) = some (v + (amounts.map integer_sqrt).sum) ∨
          (amounts = [] ∧ s2 = s0)) := by
  intro amounts
  induction amounts with
  | nil =>
    intro s0 v hv hb
    exact ⟨s0, rfl, Or.inr ⟨rfl, rfl⟩⟩
  | cons a rest ih =>
    intro s0 v hv hb
    simp only [List.map_cons, List.sum_cons] at hb
    have hok : checked_add_between_balances (get_aye_votes_balance s0 p who)
        (integer_sqrt a) = Except.ok (v + integer_sqrt a) := by
      rw [hv, checked_add_between_balances, if_pos (by omega)]
    have hstep : batchLoop who idxs ((a :: rest).map (fun a => (p, a, Vote.Aye))) s0 =
        batchLoop who idxs (rest.map (fun a => (p, a, Vote.Aye)))
          (deposit_event
            (make_free_balance_be
              { s0 with ayeVotes := setAL s0.ayeVotes (p, who) (v + integer_sqrt a) } who
              (get_voter_balance
                { s0 with ayeVotes := setAL s0.ayeVotes (p, who) (v + integer_sqrt a) } who))
            (Event.ProposalsVoted idxs)) := by
      rw [List.map_cons, batchLoop, hok]
    have hnext : get_aye_votes_balance
        (deposit_event
          (make_free_balance_be
            { s0 with ayeVotes := setAL s0.ayeVotes (p, who) (v + integer_sqrt a) } who
            (get_voter_balance
              { s0 with ayeVotes := setAL s0.ayeVotes (p, who) (v + integer_sqrt a) } who))
          (Event.ProposalsVoted idxs)) p who = v + integer_sqrt a := by
      simp [get_aye_votes_balance, deposit_event, make_free_balance_be, lookupAL_setAL_self]
    have hbound : (v + integer_sqrt a) + (rest.map integer_sqrt).sum < balanceMod := by
      omega
    obtain ⟨s2, hrun, hdisj⟩ := ih _ (v + integer_sqrt a) hnext hbound
    refine ⟨s2, by rw [hstep, hrun], Or.inl ?_⟩
    rcases hdisj with hsome | ⟨hrest, hs2⟩
    · rw [hsome]
      simp only [List.map_cons, List.sum_cons]
      congr 1
      omega
    · subst hrest
      subst hs2
      simp [deposit_event, make_free_balance_be, lookupAL_setAL_self]

/-- C10: the `VoterAlreadyVoted` check of `vote_multiple_proposals` only
inspects pre-call vote records, so a batch listing the same `InProgress`,
unexpired proposal in `k` `Aye` items succeeds for a caller with no
pre-existing record and sufficient reserved balance, and the caller's single
record on that proposal ends at the sum of `floor (sqrt aᵢ)` over the batch:
within-batch duplicates accumulate instead of being rejected. -/
theorem vote_multiple_duplicate_accumulates (s : State) (who p now : Nat)
    (prop : Proposal) (amounts : List Nat)
    (hr : is_voter_registered s who = true)
    (hp : get_proposal s p = some prop)
    (hst : prop.status = ProposalStatus.InProgress)
    (hlive : now < prop.end_block)
    (hnov : voter_has_voted s p who = false)
    (hne : amounts ≠ [])
    (hsum : (amounts.map Nat.sqrt).sum < balanceMod)
    (hres : amounts.foldl (fun acc a => (acc + a) % balanceMod) 0 ≤ reservedBalance s who) :
    ∃ s2, vote_multiple_proposals s (Origin.Signed who)
        (amounts.map (fun a => (p, a, Vote.Aye))) now = Except.ok s2 ∧
      lookupAL s2.ayeVotes (p, who) = some ((amounts.map Nat.sqrt).sum) := by
  have hp2 : lookupAL s.proposals p = some prop := hp
  have hreg : is_proposal_registered s p = true := by
    simp [is_proposal_registered, hp2]
  have hact : is_proposal_active s p = true := by
    simp [is_proposal_active, get_proposal, hp2, hst, hreg]
  have hend : get_proposal_end_block s p = prop.end_block := by
    simp [get_proposal_end_block, get_proposal, hp2]
  have hmaps : amounts.map integer_sqrt = amounts.map Nat.sqrt := by
    simp [integer_sqrt_eq_sqrt]
  have hnone : lookupAL s.ayeVotes (p, who) = none := by
    rw [voter_has_voted] at hnov
    cases hcase : lookupAL s.ayeVotes (p, who) with
    | none => rfl
    | some v => rw [hcase] at hnov; simp at hnov
  have hzero : get_aye_votes_balance s p who = 0 := by
    simp [get_aye_votes_balance, hnone]
  have hall : (amounts.map (fun a => (p, a, Vote.Aye))).all (fun proposal =>
      is_proposal_registered s proposal.1 && is_proposal_active s proposal.1) = true := by
    simp [List.all_map, Function.comp, hreg, hact]
  have hfold : (amounts.map (fun a => (p, a, Vote.Aye))).foldl
      (fun acc proposal => (acc + proposal.2.1) % balanceMod) 0 =
      amounts.foldl (fun acc a => (acc + a) % balanceMod) 0 := by
    rw [List.foldl_map]
  have hany : (amounts.map (fun a => (p, a, Vote.Aye))).any (fun proposal =>
      voter_has_voted s proposal.1 who) = false := by
    simp [List.any_map, Function.comp, hnov]
  have hstill : (amounts.map (fun a => (p, a, Vote.Aye))).all (fun proposal =>
      now < get_proposal_end_block s proposal.1) = true := by
    refine List.all_eq_true.mpr ?_
    intro x hx
    simp only [List.mem_map] at hx
    obtain ⟨a2, _, rfl⟩ := hx
    simp [hend]
    omega
  obtain ⟨s2, hrun, hlook⟩ := batchLoop_dup who p
    ((amounts.map (fun a => (p, a, Vote.Aye))).map (fun proposal => proposal.1))
    amounts s 0 hzero (by rw [hmaps]; omega)
  rw [vote_multiple_proposals]
  simp only [hr, if_true, hall, hfold, if_pos hres, hany, Bool.false_eq_true, if_false,
    hstill]
  refine ⟨s2, hrun, ?_⟩
  rcases hlook with hsome | ⟨hnil, _⟩
  · rw [hsome, hmaps]
    simp
  · exact absurd hnil hne

def w10State : State :=
  { registeredVoters := [(1, true)], proposals := [(1, w4Proposal)], ayeVotes := [],
    free := [(1, 45)], reservedBal := [(1, 100)], events := [] }

theorem vote_multiple_duplicate_accumulates_witness :
    ∃ s2, vote_multiple_proposals w10State (Origin.Signed 1)
        ([50, 16].map (fun a => (1, a, Vote.Aye))) 10 = Except.ok s2 ∧
      lookupAL s2.ayeVotes (1, 1) = some 11 := by
  obtain ⟨s2, hrun, hlook⟩ := vote_multiple_duplicate_accumulates w10State 1 1 10
    w4Proposal [50, 16] (by decide) (by decide) (by decide) (by decide) (by decide)
    (by decide)
    (by simp only [List.map_cons, List.map_nil, List.sum_cons, List.sum_nil,
      ← integer_sqrt_eq_sqrt]; decide)
    (by decide)
  refine ⟨s2, hrun, ?_⟩
  rw [hlook]
  simp only [List.map_cons, List.map_nil, List.sum_cons, List.sum_nil,
    ← integer_sqrt_eq_sqrt]
  decide

def c9State : State :=
  { registeredVoters := [(1, true)], proposals := [(1, w4Proposal)], ayeVotes := [],
    free := [], reservedBal := [], events := [] }

def c9Items : List (Nat × Nat × Vote) := [(1, 2 ^ 128 - 1, Vote.Aye), (1, 1, Vote.Aye)]

/-- C9 refutation at the failing input: voter `1` is registered with reserved
balance `0`; the batch lists proposal `1` twice with amounts summing to
`2 ^ 128`. The `total_tokens_to_use` fold of `vote_multiple_proposals` uses an
unchecked `u128` addition, so the sum wraps to `0`, the
reserved-balance check passes with zero reserved tokens, and the call
succeeds, recording aye weight `2 ^ 64` — contradicting the claim that the
sum of the per-item amounts is overflow-checked and cannot wrap. -/
theorem vote_multiple_unchecked_sum_wraps :
    reservedBalance c9State 1 = 0 ∧
    c9Items.foldl (fun acc it => acc + it.2.1) 0 = 2 ^ 128 ∧
    c9Items.foldl (fun acc it => (acc + it.2.1) % balanceMod) 0 = 0 ∧
    (vote_multiple_proposals c9State (Origin.Signed 1) c9Items 10).toOption.map
      (fun s2 => lookupAL s2.ayeVotes (1, 1)) = some (some (2 ^ 64)) := by
  refine ⟨rfl, by decide, by decide, ?_⟩
  decide

def c1PropA : Proposal :=
  { proposal_index := 1, text := 0, proposer := 1, end_block := 100,
    status := ProposalStatus.InProgress }

def c1PropB : Proposal :=
  { proposal_index := 2, text := 0, proposer := 2, end_block := 100,
    status := ProposalStatus.InProgress }

def c1State : State :=
  { registeredVoters := [], proposals := [(1, c1PropA), (2, c1PropB)],
    ayeVotes := [((1, 10), 6), ((1, 11), 7), ((2, 10), 13)],
    free := [], reservedBal := [], events := [] }

set_option maxRecDepth 400000 in
/-- C1 refutation at the failing input: proposals `1` and `2` both total aye
weight `13`. The `Proposals` map is keyed with `Blake2_128Concat`, and the
storage key of index `2` sorts lexicographically before the storage key of
index `1`, so `Proposals::<T>::iter()` scans proposal `2` first and the
strict greater-than update leaves it the winner of the tie: `get_winner`
returns `2`, not the `1` mandated by an ascending-numeric-order scan in
which proposal `1` reaches `13` first. -/
theorem get_winner_hash_order_tie :
    voteTotal c1State 1 = 13 ∧ voteTotal c1State 2 = 13 ∧
    lexLt (blakeKey 2) (blakeKey 1) = true ∧
    get_winner c1State = 2 := by
  refine ⟨by decide, by decide, by decide, by decide⟩

end QuadraticVoting
